import Mathlib

/-!
Shallow embedding of the face-redaction pipeline of the mxber2022/facerecog
repository: the gallery data model of FaceManager.tsx with its JSON import
and batch enrollment, the per-detection matcher and render step of the
VideoStream component (processFrame), the 200 ms detection loop modeled as a
small-step event system whose interleaving points are the awaits of the
source, and the startStream / UI start guard.
-/

namespace FaceRecog

/-- Values JSON.parse can return: the input domain of importDatabase. -/
inductive Json where
  | null
  | bool (b : Bool)
  | num (q : ℚ)
  | str (s : String)
  | arr (elems : List Json)
  | obj (fields : List (String × Json))

/-- Value of one slot of a Float32Array: a finite float modeled as a
rational, an infinity, or NaN. Rounding of finite values to 32-bit
precision is not modeled. -/
inductive Fl where
  | nan
  | inf (neg : Bool)
  | val (q : ℚ)
deriving DecidableEq

/-- One record of the face database, the inline type
{id, name, descriptor: Float32Array, image} of the source. At runtime an
imported record carries whatever the file held in id, name and image
(possibly nothing), so those fields are JSON values that may be absent;
the scalar type of the descriptor is a parameter because the matcher is
proved over real-valued embeddings while import and enrollment are proved
over the Float32Array model Fl. -/
structure FaceRecord (α : Type) where
  id : Option Json
  name : Option Json
  descriptor : List α
  image : Option Json

def idKey : String := "id"
def nameKey : String := "name"
def descriptorKey : String := "descriptor"
def imageKey : String := "image"
def importErrorMessage : String := "Invalid database file format"
def noFacesMessage : String := "No faces detected in the uploaded images"
def imageTypeMarker : String := "image/"
def dotSep : String := "."

/-- String.prototype.startsWith, modeled over the character lists so that
concrete instances compute inside the kernel. -/
def strStartsWith (s pre : String) : Bool :=
  pre.data.isPrefixOf s.data

/-- Property access face.key of JS on a parsed JSON value: a lookup on an
object, undefined (none) on any other non-null primitive or on an array.
Access on null throws; callers that can receive null handle that case
before calling getField. -/
def getField : Json → String → Option Json
  | Json.obj fs, k => (fs.find? fun p => p.1 == k).map Prod.snd
  | _, _ => none

/-- Numeric values of JS at the precision of this model: NaN, a signed
infinity, or a finite value as an exact rational. The rounding of finite
values to 64-bit doubles is not modeled; since the JSON numbers of the
program are doubles already, the divergence is confined to string inputs
whose double rounding crosses an integer boundary (about twenty
significant digits), which no property below depends on. -/
inductive JsNum where
  | nan
  | inf (neg : Bool)
  | fin (q : ℚ)

/-- WhiteSpace and LineTerminator code points of JS, the characters
StringToNumber trims (TAB LF VT FF CR SP NBSP, the enumerated Zs spaces,
LS PS, ZWNBSP). -/
def isJsSpace (c : Char) : Bool :=
  if [9, 10, 11, 12, 13, 32, 160, 5760, 8232, 8233, 8239, 8287, 12288,
      65279].contains c.toNat then true
  else if 8192 ≤ c.toNat ∧ c.toNat ≤ 8202 then true
  else false

def decDigitVal (c : Char) : ℕ := c.toNat - 48

def natOfDigits (ds : List Char) : ℕ :=
  ds.foldl (fun a c => a * 10 + decDigitVal c) 0

def isHexChar (c : Char) : Bool :=
  if c.isDigit then true
  else if 97 ≤ c.toNat ∧ c.toNat ≤ 102 then true
  else if 65 ≤ c.toNat ∧ c.toNat ≤ 70 then true
  else false

def hexDigitVal (c : Char) : ℕ :=
  if c.isDigit then c.toNat - 48
  else if 97 ≤ c.toNat then c.toNat - 87
  else c.toNat - 55

def isOctalChar (c : Char) : Bool :=
  if 48 ≤ c.toNat ∧ c.toNat ≤ 55 then true else false

def isBinaryChar (c : Char) : Bool :=
  if 48 ≤ c.toNat ∧ c.toNat ≤ 49 then true else false

def natOfRadix (b : ℕ) (val : Char → ℕ) (ds : List Char) : ℕ :=
  ds.foldl (fun a c => a * b + val c) 0

/-- Value of the decimal literal int.frac x 10 ^ e: the digit lists are
merged into one integer mantissa and the exponent shifted by the fraction
length, so the value is mantissa x 10 ^ e2; computed entirely in ℕ when e2
is nonnegative and as a single division otherwise, so that integer-valued
concrete instances reduce inside the kernel. -/
def decValue (intDs fracDs : List Char) (e : ℤ) : ℚ :=
  let mantissa := natOfDigits (intDs ++ fracDs)
  let e2 : ℤ := e - (fracDs.length : ℤ)
  if 0 ≤ e2 then ((mantissa * 10 ^ e2.toNat : ℕ) : ℚ)
  else (mantissa : ℚ) / ((10 ^ (-e2).toNat : ℕ) : ℚ)

/-- ExponentPart of StrDecimalLiteral, which must consume the whole rest of
the input: e or E, an optional sign, then at least one digit; the empty
rest is the absent exponent. -/
def parseExpPart : List Char → Option ℤ
  | [] => some 0
  | c :: rest =>
      if c = 'e' ∨ c = 'E' then
        match rest with
        | '+' :: ds =>
            if ds ≠ [] ∧ ds.all Char.isDigit = true then
              some ((natOfDigits ds : ℕ) : ℤ)
            else none
        | '-' :: ds =>
            if ds ≠ [] ∧ ds.all Char.isDigit = true then
              some (-((natOfDigits ds : ℕ) : ℤ))
            else none
        | ds =>
            if ds ≠ [] ∧ ds.all Char.isDigit = true then
              some ((natOfDigits ds : ℕ) : ℤ)
            else none
      else none

/-- StrUnsignedDecimalLiteral without the Infinity alternative: decimal
digits, an optional dot with optional further digits (at least one digit
in total), and an optional exponent; leading zeros allowed. -/
def parseUnsignedDec (cs : List Char) : Option ℚ :=
  let intDs := cs.takeWhile Char.isDigit
  let rest1 := cs.dropWhile Char.isDigit
  match rest1 with
  | '.' :: rest2 =>
      let fracDs := rest2.takeWhile Char.isDigit
      let rest3 := rest2.dropWhile Char.isDigit
      if intDs.isEmpty && fracDs.isEmpty then none
      else
        match parseExpPart rest3 with
        | some e => some (decValue intDs fracDs e)
        | none => none
  | _ =>
      if intDs.isEmpty then none
      else
        match parseExpPart rest1 with
        | some e => some (decValue intDs [] e)
        | none => none

def infinityChars : List Char := ['I', 'n', 'f', 'i', 'n', 'i', 't', 'y']

/-- StringToNumber of JS: trim white space; the empty remainder is 0; an
unsigned hex, octal or binary integer literal; otherwise an optional sign
followed by Infinity or a decimal literal; anything else is NaN. -/
def stringToNumber (s : String) : JsNum :=
  let cs := ((s.data.dropWhile isJsSpace).reverse.dropWhile isJsSpace).reverse
  if cs.isEmpty then JsNum.fin 0
  else
    let radix? : Option ℚ :=
      match cs with
      | '0' :: 'x' :: ds =>
          if ds ≠ [] ∧ ds.all isHexChar = true then
            some ((natOfRadix 16 hexDigitVal ds : ℕ) : ℚ)
          else none
      | '0' :: 'X' :: ds =>
          if ds ≠ [] ∧ ds.all isHexChar = true then
            some ((natOfRadix 16 hexDigitVal ds : ℕ) : ℚ)
          else none
      | '0' :: 'o' :: ds =>
          if ds ≠ [] ∧ ds.all isOctalChar = true then
            some ((natOfRadix 8 decDigitVal ds : ℕ) : ℚ)
          else none
      | '0' :: 'O' :: ds =>
          if ds ≠ [] ∧ ds.all isOctalChar = true then
            some ((natOfRadix 8 decDigitVal ds : ℕ) : ℚ)
          else none
      | '0' :: 'b' :: ds =>
          if ds ≠ [] ∧ ds.all isBinaryChar = true then
            some ((natOfRadix 2 decDigitVal ds : ℕ) : ℚ)
          else none
      | '0' :: 'B' :: ds =>
          if ds ≠ [] ∧ ds.all isBinaryChar = true then
            some ((natOfRadix 2 decDigitVal ds : ℕ) : ℚ)
          else none
      | _ => none
    match radix? with
    | some q => JsNum.fin q
    | none =>
        match cs with
        | '+' :: body =>
            if body = infinityChars then JsNum.inf false
            else
              match parseUnsignedDec body with
              | some q => JsNum.fin q
              | none => JsNum.nan
        | '-' :: body =>
            if body = infinityChars then JsNum.inf true
            else
              match parseUnsignedDec body with
              | some q => JsNum.fin (-q)
              | none => JsNum.nan
        | body =>
            if body = infinityChars then JsNum.inf false
            else
              match parseUnsignedDec body with
              | some q => JsNum.fin q
              | none => JsNum.nan

/-- ToNumber of the single element e of a JSON array [e]: JS converts such
an array through the comma join of its rendered elements, so null renders
empty (0), a number round-trips through its string form (doubles reparse
to themselves), a string stands as it is and is then parsed, a boolean
renders true or false (NaN), a nested array renders as its own join
(recursion), and an object renders as [object Object] (NaN). A join of two
or more elements always contains a comma and never parses. -/
def singleElemNumber : Json → JsNum
  | Json.null => JsNum.fin 0
  | Json.bool _ => JsNum.nan
  | Json.num q => JsNum.fin q
  | Json.str s => stringToNumber s
  | Json.arr [] => JsNum.fin 0
  | Json.arr [y] => singleElemNumber y
  | Json.arr _ => JsNum.nan
  | Json.obj _ => JsNum.nan

/-- ToNumber of a parsed JSON value: the element conversion of the typed
array, and the length read of an array-like. -/
def jsToNumber : Json → JsNum
  | Json.null => JsNum.fin 0
  | Json.bool b => JsNum.fin (if b then 1 else 0)
  | Json.num q => JsNum.fin q
  | Json.str s => stringToNumber s
  | Json.arr [] => JsNum.fin 0
  | Json.arr [y] => singleElemNumber y
  | Json.arr _ => JsNum.nan
  | Json.obj _ => JsNum.nan

/-- The float32 slot a converted element is stored into (rounding of finite
values to 32-bit precision not modeled). -/
def flOfJsNum : JsNum → Fl
  | JsNum.nan => Fl.nan
  | JsNum.inf n => Fl.inf n
  | JsNum.fin q => Fl.val q

/-- Truncation toward zero, ToIntegerOrInfinity on a finite value. -/
def truncQ (q : ℚ) : ℤ := q.num.tdiv (q.den : ℤ)

/-- Largest valid index of JS, 2 ^ 53 - 1. -/
def maxJsLength : ℕ := 2 ^ 53 - 1

/-- ToIndex, the length check of the typed-array constructor on a
non-object argument: NaN gives 0, a value with a negative integer part, an
infinity or a value beyond 2 ^ 53 - 1 throws a RangeError, anything else
truncates toward zero (current ECMAScript semantics; the older ES6 form
threw on non-integer values instead of truncating). -/
def toIndex (n : JsNum) : Except Unit ℕ :=
  match n with
  | JsNum.nan => Except.ok 0
  | JsNum.inf _ => Except.error ()
  | JsNum.fin q =>
      let t := truncQ q
      if t < 0 then Except.error ()
      else if (maxJsLength : ℤ) < t then Except.error ()
      else Except.ok t.toNat

/-- ToLength, the clamped length read of an array-like: never throws. -/
def toLength (n : JsNum) : ℕ :=
  match n with
  | JsNum.nan => 0
  | JsNum.inf neg => if neg then 0 else maxJsLength
  | JsNum.fin q =>
      let t := truncQ q
      if t < 0 then 0 else min t.toNat maxJsLength

def lengthKey : String := "length"

/-- The zero-filled typed array of the length ToIndex yields, or its
RangeError. -/
def lengthPathF32 (n : JsNum) : Except Unit (List Fl) :=
  (toIndex n).map fun k => List.replicate k (Fl.val 0)

/-- Construction new Float32Array(x) on the descriptor field of an imported
record, x a parsed JSON value or absent (none = undefined). A non-object
argument (absent, null, boolean, number, string) is taken as a length:
ToIndex of its ToNumber image, a zero-filled array of that many slots, or
a thrown RangeError (Except.error) when the length conversion rejects it —
so a negative or infinite value, or one at or beyond 2 ^ 53, fails, while
a fractional one truncates. An array is converted element by element with
ToNumber. A plain object is an array-like: its length field read through
ToLength (clamped, never throwing, 0 when absent), each slot read from the
field named by its decimal index, absent slots NaN. Implementation
allocation limits below the 2 ^ 53 - 1 bound are not modeled; no property
below depends on huge lengths. -/
def float32OfJson : Option Json → Except Unit (List Fl)
  | none => lengthPathF32 JsNum.nan
  | some Json.null => lengthPathF32 (JsNum.fin 0)
  | some (Json.bool b) => lengthPathF32 (JsNum.fin (if b then 1 else 0))
  | some (Json.num q) => lengthPathF32 (JsNum.fin q)
  | some (Json.str s) => lengthPathF32 (stringToNumber s)
  | some (Json.arr xs) => Except.ok (xs.map fun x => flOfJsNum (jsToNumber x))
  | some (Json.obj fs) =>
      let len := toLength
        (match getField (Json.obj fs) lengthKey with
          | none => JsNum.nan
          | some v => jsToNumber v)
      Except.ok ((List.range len).map fun k =>
        match getField (Json.obj fs) (toString k) with
        | none => Fl.nan
        | some v => flOfJsNum (jsToNumber v))

def Json.isNull : Json → Bool
  | Json.null => true
  | _ => false

/-- One element of the imported array turned into a record, the body of the
map in importDatabase: spread the element and overwrite descriptor with
new Float32Array(face.descriptor). Reading .descriptor from a null element
throws a TypeError (Except.error), as does a descriptor the typed-array
constructor rejects; any other element is accepted as is. -/
def entryOfJson (j : Json) : Except Unit (FaceRecord Fl) :=
  if j.isNull then Except.error ()
  else
    match float32OfJson (getField j descriptorKey) with
    | Except.error u => Except.error u
    | Except.ok d =>
        Except.ok ⟨getField j idKey, getField j nameKey, d, getField j imageKey⟩

/-- Array.prototype.map under exceptions: the first element whose image
throws aborts the whole map. -/
def mapOrThrow (f : Json → Except Unit (FaceRecord Fl)) :
    List Json → Except Unit (List (FaceRecord Fl))
  | [] => Except.ok []
  | j :: js =>
      match f j with
      | Except.error u => Except.error u
      | Except.ok e =>
          match mapOrThrow f js with
          | Except.error u => Except.error u
          | Except.ok es => Except.ok (e :: es)

/-- importDatabase of FaceManager.tsx, from the point where the file text
has been read: the argument is the outcome of JSON.parse (error = the parse
threw). A successful parse of an array is mapped and, when no element
throws, replaces the whole database; a throw anywhere inside the try block
is caught and sets the error message, leaving the database as it was; a
successful parse of a non-array value matches no branch and leaves both
the database and the error state untouched. -/
def importDatabase (parsed : Except Unit Json) (gal : List (FaceRecord Fl))
    (err : String) : List (FaceRecord Fl) × String :=
  match parsed with
  | Except.error _ => (gal, importErrorMessage)
  | Except.ok (Json.arr xs) =>
      match mapOrThrow entryOfJson xs with
      | Except.ok entries => (entries, err)
      | Except.error _ => (gal, importErrorMessage)
  | Except.ok _ => (gal, err)

/-- removeFace of FaceManager.tsx: keep the records whose id differs from
the given string under strict JS equality (a non-string id is never
strictly equal to a string). -/
def removeFace (gal : List (FaceRecord Fl)) (target : String) :
    List (FaceRecord Fl) :=
  gal.filter fun face =>
    match face.id with
    | some (Json.str s) => ! (s == target)
    | _ => true

/-- What processImage resolves to for one file: the descriptor and the
thumbnail data URL on success, none when no face is detected (or the
canvas context is unavailable or detection throws, which the source also
resolves to null). -/
structure ExtractResult where
  descriptor : List Fl
  image : String

/-- One file handed to handleFileSelect: its MIME type, its name, the
Date.now() reading taken when its record is built, and the outcome the
external extractor yields for it. -/
structure FileModel where
  ftype : String
  fname : String
  now : ℕ
  extract : Option ExtractResult

/-- Loop body of handleFileSelect for the file at index i: skip non-image
MIME types, skip files where processImage resolves null, and otherwise
build the record with id Date.now() + i stringified and name the part of
the file name before the first dot. -/
def enrollEntry (i : ℕ) (f : FileModel) : Option (FaceRecord Fl) :=
  if strStartsWith f.ftype imageTypeMarker then
    match f.extract with
    | some r =>
        some ⟨some (Json.str (toString (f.now + i))),
              some (Json.str ((f.fname.splitOn dotSep).headD f.fname)),
              r.descriptor,
              some (Json.str r.image)⟩
    | none => none
  else none

/-- handleFileSelect of FaceManager.tsx: process every file independently,
collect the records that succeeded, and either report the single aggregate
no-faces message (database untouched) when none succeeded or append all
collected records to the database (error state reset to the empty string,
as the function clears it on entry and never sets it again on this path). -/
def handleFileSelect (gal : List (FaceRecord Fl)) (files : List FileModel) :
    List (FaceRecord Fl) × String :=
  let newFaces := (files.enum.filterMap fun p => enrollEntry p.1 p.2)
  if newFaces.length = 0 then (gal, noFacesMessage)
  else (gal ++ newFaces, "")

/-! Matcher and render step (processFrame of the VideoStream component).
Embeddings are modeled as real vectors; the threshold 0.6 is the literal of
the source. -/

/-- Sum of squared coordinate differences of two embeddings, the loop
inside faceapi.euclideanDistance. -/
noncomputable def sumSqDiff (a b : List ℝ) : ℝ :=
  (List.zipWith (fun x y => (x - y) ^ 2) a b).sum

/-- faceapi.euclideanDistance: the square root of the summed squared
differences. -/
noncomputable def euclideanDistance (a b : List ℝ) : ℝ :=
  Real.sqrt (sumSqDiff a b)

/-- Per-detection verdict of processFrame: shouldBlur starts false, and only
when the database is non-empty the database is scanned, the scan stopping at
the first record within distance 0.6. The scan with early break equals
List.any. -/
noncomputable def shouldBlur (gal : List (FaceRecord ℝ)) (descriptor : List ℝ) :
    Bool :=
  if 0 < gal.length then
    gal.any fun knownFace =>
      decide (euclideanDistance descriptor knownFace.descriptor < 0.6)
  else false

/-- Minimum over the whole gallery of the distance to the detection, the
formula of the specification (written from the words of the spec, to be
compared with shouldBlur; meaningful only for a non-empty gallery, the value
on the empty gallery being junk). -/
noncomputable def specMinDistance (descriptor : List ℝ) :
    List (FaceRecord ℝ) → ℝ
  | [] => 0
  | g :: gs =>
      (gs.map fun g2 => euclideanDistance descriptor g2.descriptor).foldl
        min (euclideanDistance descriptor g.descriptor)

/-- Bounding box of a detection, in source-frame pixels. -/
structure DetectionBox where
  x : ℚ
  y : ℚ
  width : ℚ
  height : ℚ

/-- One cached detection: box and embedding. -/
structure Detection where
  box : DetectionBox
  descriptor : List ℝ

def fillStyleRed : String := "rgba(255,0,0,0.5)"
def matchStrokeStyle : String := "#ef4444"
def noMatchStrokeStyle : String := "#22c55e"

/-- Canvas commands processFrame issues, in order: the frame copy, then per
detection an optional translucent fill and always an outline. -/
inductive DrawOp where
  | videoFrame
  | fillRect (style : String) (box : DetectionBox)
  | strokeRect (style : String) (lineWidth : ℚ) (box : DetectionBox)

/-- The detectionStats record of the component: fps, facesDetected,
facesBlurred (the spec calls the last facesRedacted). -/
structure DetectionStats where
  fps : ℕ
  facesDetected : ℕ
  facesBlurred : ℕ

/-- Body of the for-loop of processFrame for one detection, threading the
list of issued draw operations and the blurredCount accumulator. -/
noncomputable def renderDetection (gal : List (FaceRecord ℝ))
    (acc : List DrawOp × ℕ) (d : Detection) : List DrawOp × ℕ :=
  let blur := shouldBlur gal d.descriptor
  let acc1 :=
    if blur then (acc.1 ++ [DrawOp.fillRect fillStyleRed d.box], acc.2 + 1)
    else acc
  (acc1.1 ++
    [DrawOp.strokeRect (if blur then matchStrokeStyle else noMatchStrokeStyle)
      2 d.box],
   acc1.2)

/-- processFrame of VideoStream: when one of the video element, canvas or
model flag is missing it returns without drawing or touching the stats;
when the 2d context is unavailable likewise; otherwise it copies the frame,
draws per cached detection, and overwrites facesBlurred and facesDetected
of the stats, keeping fps. -/
noncomputable def processFrame (videoPresent canvasPresent modelsLoaded
    ctxPresent : Bool) (detections : List Detection)
    (gal : List (FaceRecord ℝ)) (prev : DetectionStats) :
    List DrawOp × DetectionStats :=
  if videoPresent && canvasPresent && modelsLoaded then
    if ctxPresent then
      let r := detections.foldl (renderDetection gal) ([DrawOp.videoFrame], 0)
      (r.1, ⟨prev.fps, detections.length, r.2⟩)
    else ([], prev)
  else ([], prev)

/-! Detection loop (the 200 ms effect of VideoStream), as a small-step event
system. JS is single threaded, so the loop only interleaves with the rest of
the program at its awaits; each event below is one synchronous segment of
detectLoop or one external action. checkLoop is the segment from the while
test through either starting an extraction (playing) or starting the 200 ms
sleep (not playing); extractOk is the segment from the extraction resolving
through publishing into lastDetectionsRef and starting the sleep; extractErr
is the extraction rejecting, which nothing catches, so the async function
aborts; sleepDone is the timer firing; signalStop is the effect cleanup
setting the stopped flag, possible at any time. -/

inductive LoopPhase where
  | atLoopTop
  | extracting
  | sleeping
  | exited
  | crashed
deriving DecidableEq

/-- State of one run of detectLoop, instrumented with the publish log, the
number of extractions started and the number in flight. -/
structure LoopState where
  stopped : Bool
  phase : LoopPhase
  lastDetections : List Detection
  publishLog : List (List Detection)
  extractionsStarted : ℕ
  inFlight : ℕ

inductive LoopEvent where
  | signalStop
  | checkLoop (playing : Bool)
  | extractOk (ds : List Detection)
  | extractErr
  | sleepDone

def stepLoop (s : LoopState) : LoopEvent → LoopState
  | LoopEvent.signalStop => { s with stopped := true }
  | LoopEvent.checkLoop playing =>
      if s.phase = LoopPhase.atLoopTop then
        if s.stopped then { s with phase := LoopPhase.exited }
        else if playing then
          { s with phase := LoopPhase.extracting,
                   extractionsStarted := s.extractionsStarted + 1,
                   inFlight := s.inFlight + 1 }
        else { s with phase := LoopPhase.sleeping }
      else s
  | LoopEvent.extractOk ds =>
      if s.phase = LoopPhase.extracting then
        { s with phase := LoopPhase.sleeping,
                 lastDetections := ds,
                 publishLog := s.publishLog ++ [ds],
                 inFlight := s.inFlight - 1 }
      else s
  | LoopEvent.extractErr =>
      if s.phase = LoopPhase.extracting then
        { s with phase := LoopPhase.crashed, inFlight := s.inFlight - 1 }
      else s
  | LoopEvent.sleepDone =>
      if s.phase = LoopPhase.sleeping then { s with phase := LoopPhase.atLoopTop }
      else s

def runLoopFrom (s : LoopState) (evs : List LoopEvent) : LoopState :=
  evs.foldl stepLoop s

/-- State when the effect fires and calls detectLoop(): flag clear, at the
loop top, the cached detections ref still empty. -/
def initLoopState : LoopState :=
  ⟨false, LoopPhase.atLoopTop, [], [], 0, 0⟩

/-- How many further publishes are possible once the stop flag is set: one
when an extraction is in flight, none otherwise. -/
def pubBudget (ph : LoopPhase) : ℕ :=
  if ph = LoopPhase.extracting then 1 else 0

/-! startStream / stopStream and the UI guard on starting. -/

def emptyUrlMessage : String := "Please enter a stream URL"
def startFailedMarker : String := "Failed to start stream: "
def httpMarker : String := "http"

/-- Outcome of one startStream call: the isPlaying state it leaves, the
error string it leaves, and whether a captured MediaStream was stored in
streamRef. -/
structure StartOutcome where
  isPlaying : Bool
  error : String
  streamStored : Bool
deriving DecidableEq

/-- startStream of VideoStream. Its inputs beyond the url: whether the
video element ref is non-null, whether the awaited play (or getUserMedia
followed by play) succeeds, and the message of the failure otherwise.
modelsLoaded is passed to record that the function never consults it. -/
def startStream (modelsLoaded : Bool) (streamUrl : String)
    (videoPresent : Bool) (playOk : Bool) (failMsg : String) : StartOutcome :=
  if streamUrl.length = 0 then ⟨false, emptyUrlMessage, false⟩
  else if strStartsWith streamUrl httpMarker then
    if videoPresent then
      if playOk then ⟨true, "", false⟩
      else ⟨false, startFailedMarker ++ failMsg, false⟩
    else ⟨false, "", false⟩
  else
    if playOk then
      if videoPresent then ⟨true, "", true⟩ else ⟨false, "", false⟩
    else ⟨false, startFailedMarker ++ failMsg, false⟩

/-- The only model-readiness guard around starting: the Start button carries
disabled={!modelsLoaded}. -/
def startButtonEnabled (modelsLoaded : Bool) : Bool := modelsLoaded

/-- Condition of the auto-start effect: it calls startStream only when
autoStart is set, nothing is playing yet and the models are loaded. -/
def autoStartTriggers (autoStart isPlaying modelsLoaded : Bool) : Bool :=
  autoStart && !isPlaying && modelsLoaded

/-! Derived predicates and concrete sample inputs used by the theorems. -/

/-- What import guarantees per element: the record holds exactly the id,
name and image fields of the element and the typed-array coercion of its
descriptor, nothing further being validated. -/
def importedEntryMatches (j : Json) (en : FaceRecord Fl) : Prop :=
  j ≠ Json.null
  ∧ en.id = getField j idKey
  ∧ en.name = getField j nameKey
  ∧ en.image = getField j imageKey
  ∧ float32OfJson (getField j descriptorKey) = Except.ok en.descriptor

/-- Upper bound for the publish log once the stop flag is set: the log so
far plus one possible publish when an extraction is in flight. -/
def stopMeasure (s : LoopState) : ℕ :=
  s.publishLog.length + pubBudget s.phase

def emptyErr : String := ""
def emptyGallery : List (FaceRecord Fl) := []
def twinId : String := "twin"

/-- A record already enrolled, to exhibit what happens to a pre-existing
gallery. -/
def sampleFlRecord : FaceRecord Fl :=
  ⟨some (Json.str twinId), none, [Fl.val 1], none⟩

/-- An imported element that carries an id and an empty descriptor. -/
def dupIdElement : Json :=
  Json.obj [(idKey, Json.str twinId), (descriptorKey, Json.arr [])]

/-- A syntactically valid JSON value whose top level is not an array. -/
def nonArrayInput : Json := Json.obj []

/-- An array input holding one null element. -/
def nullElementInput : Json := Json.arr [Json.null]

def expSmallString : String := "1e1"
def expKString : String := "1e3"
def negDescString : String := "-2"
def sevenString : String := "7"

/-- The value 1.5, written as the normalized rational so that concrete
instances reduce inside the kernel. -/
def qThreeHalves : ℚ := ⟨3, 2, by norm_num, by norm_num⟩

/-- Elements of every shape, none of them a well-formed gallery record:
assorted primitives, an array holding null, and descriptors that exercise
the typed-array boundary (an exponent-form numeric string, an element-wise
converted array, a fractional length). -/
def oddElements : List Json :=
  [Json.obj [(idKey, Json.num 1)], Json.num 2, Json.str twinId,
   Json.bool true, Json.arr [Json.null],
   Json.obj [(descriptorKey, Json.str expSmallString)],
   Json.obj [(descriptorKey,
     Json.arr [Json.str sevenString, Json.null, Json.bool true])],
   Json.obj [(descriptorKey, Json.num qThreeHalves)]]

/-- What import makes of oddElements: the id field of the first element is
kept (still a number), every other field is absent; the first five
descriptors are the empty typed array, the exponent string gives ten zero
slots, the array converts element-wise (the numeric string to its value,
null to 0, true to 1), and the fractional length truncates to one slot. -/
def oddEntries : List (FaceRecord Fl) :=
  [⟨some (Json.num 1), none, [], none⟩,
   ⟨none, none, [], none⟩,
   ⟨none, none, [], none⟩,
   ⟨none, none, [], none⟩,
   ⟨none, none, [], none⟩,
   ⟨none, none, List.replicate 10 (Fl.val 0), none⟩,
   ⟨none, none, [Fl.val 7, Fl.val 0, Fl.val 1], none⟩,
   ⟨none, none, [Fl.val 0], none⟩]

def boxZero : DetectionBox := ⟨0, 0, 0, 0⟩

/-- A detection with an empty embedding, enough to trace the loop. -/
def sampleDetection : Detection := ⟨boxZero, []⟩

/-- Schedule start the loop, start an extraction, then signal stop while it
is in flight. -/
def stopMidExtractOpening : List LoopEvent :=
  [LoopEvent.checkLoop true, LoopEvent.signalStop]

/-- The same schedule continued by the in-flight extraction resolving. -/
def stopMidExtractTrace : List LoopEvent :=
  stopMidExtractOpening ++ [LoopEvent.extractOk [sampleDetection]]

/-- Schedule the extraction rejecting, then the scheduler offering the loop
every chance to continue. -/
def failThenContinueTrace : List LoopEvent :=
  [LoopEvent.checkLoop true, LoopEvent.extractErr, LoopEvent.sleepDone,
   LoopEvent.checkLoop true, LoopEvent.checkLoop true]

def httpUrl : String := "http://example.test/stream"

/-! Theorems. -/

theorem foldl_min_lt_iff (l : List ℝ) (a c : ℝ) :
    l.foldl min a < c ↔ a < c ∨ ∃ x ∈ l, x < c := by
  induction l generalizing a with
  | nil => simp
  | cons x xs ih =>
      simp only [List.foldl_cons, ih, min_lt_iff, List.mem_cons]
      constructor
      · rintro ((h | h) | ⟨y, hy, h⟩)
        · exact Or.inl h
        · exact Or.inr ⟨x, Or.inl rfl, h⟩
        · exact Or.inr ⟨y, Or.inr hy, h⟩
      · rintro (h | ⟨y, (rfl | hy), h⟩)
        · exact Or.inl (Or.inl h)
        · exact Or.inl (Or.inr h)
        · exact Or.inr ⟨y, hy, h⟩

/-- C1: for every gallery and every detection embedding, the verdict of
processFrame equals the formula of the spec: the gallery is non-empty and
the minimum over all gallery records of the euclidean distance to the
detection embedding is strictly below the 0.6 threshold; on the empty
gallery the verdict is false outright. -/
theorem matcher_verdict_iff_min_below_threshold (gal : List (FaceRecord ℝ))
    (descriptor : List ℝ) :
    shouldBlur gal descriptor = true ↔
      gal ≠ [] ∧ specMinDistance descriptor gal < 0.6 := by
  cases gal with
  | nil => simp [shouldBlur]
  | cons g gs =>
      have hne : (g :: gs : List (FaceRecord ℝ)) ≠ [] := by simp
      simp only [shouldBlur, List.length_cons, Nat.succ_pos, if_true,
        List.any_eq_true, decide_eq_true_eq, specMinDistance,
        foldl_min_lt_iff]
      constructor
      · rintro ⟨f, hf, hlt⟩
        refine ⟨hne, ?_⟩
        rcases List.mem_cons.mp hf with rfl | hf
        · exact Or.inl hlt
        · exact Or.inr ⟨_, List.mem_map_of_mem _ hf, hlt⟩
      · rintro ⟨-, h | ⟨x, hx, hlt⟩⟩
        · exact ⟨g, List.mem_cons_self g gs, h⟩
        · rcases List.mem_map.mp hx with ⟨f, hf, rfl⟩
          exact ⟨f, List.mem_cons_of_mem g hf, hlt⟩

theorem stepLoop_stopped (s : LoopState) (e : LoopEvent) (h : s.stopped = true) :
    (stepLoop s e).stopped = true
    ∧ (stepLoop s e).extractionsStarted = s.extractionsStarted
    ∧ stopMeasure (stepLoop s e) ≤ stopMeasure s := by
  cases e with
  | signalStop => simp_all [stepLoop, stopMeasure]
  | checkLoop p =>
      simp only [stepLoop]
      split_ifs <;> simp_all [stopMeasure, pubBudget]
  | extractOk ds =>
      simp only [stepLoop]
      split_ifs <;> simp_all [stopMeasure, pubBudget]
  | extractErr =>
      simp only [stepLoop]
      split_ifs <;> simp_all [stopMeasure, pubBudget]
  | sleepDone =>
      simp only [stepLoop]
      split_ifs <;> simp_all [stopMeasure, pubBudget]

theorem runLoop_stopped (s : LoopState) (evs : List LoopEvent)
    (h : s.stopped = true) :
    (runLoopFrom s evs).stopped = true
    ∧ (runLoopFrom s evs).extractionsStarted = s.extractionsStarted
    ∧ stopMeasure (runLoopFrom s evs) ≤ stopMeasure s := by
  induction evs generalizing s with
  | nil => exact ⟨h, rfl, le_refl _⟩
  | cons e es ih =>
      have h1 := stepLoop_stopped s e h
      have h2 := ih (stepLoop s e) h1.1
      simp only [runLoopFrom, List.foldl_cons] at h2 ⊢
      exact ⟨h2.1, h1.2.1 ▸ h2.2.1, le_trans h2.2.2 h1.2.2⟩

/-- C2 counterexample: start the loop, let it begin an extraction, signal
stop while that extraction is in flight; when the extraction then resolves,
its result IS written to the snapshot reference (published), contrary to
the claim that it is discarded. -/
theorem stop_inflight_result_still_published :
    (runLoopFrom initLoopState stopMidExtractOpening).stopped = true
    ∧ (runLoopFrom initLoopState stopMidExtractOpening).phase
        = LoopPhase.extracting
    ∧ (runLoopFrom initLoopState stopMidExtractTrace).publishLog
        = [[sampleDetection]]
    ∧ (runLoopFrom initLoopState stopMidExtractTrace).lastDetections
        = [sampleDetection] :=
  ⟨rfl, rfl, rfl, rfl⟩

/-- C2 amended: once the stop flag is set, the loop starts no further
extraction, and at most one further publish can happen, namely the
extraction in flight at that moment (pubBudget is 1 exactly in the
extracting phase); the stop flag is never cleared. The in-flight result is
thus still published, but stop takes effect at the next loop-top check. -/
theorem stop_bounds_further_publishes (ph : LoopPhase) (l : List Detection)
    (pl : List (List Detection)) (n k : ℕ) (evs : List LoopEvent) :
    (runLoopFrom ⟨true, ph, l, pl, n, k⟩ evs).publishLog.length
        ≤ pl.length + pubBudget ph
    ∧ (runLoopFrom ⟨true, ph, l, pl, n, k⟩ evs).extractionsStarted = n
    ∧ (runLoopFrom ⟨true, ph, l, pl, n, k⟩ evs).stopped = true := by
  have h := runLoop_stopped ⟨true, ph, l, pl, n, k⟩ evs rfl
  refine ⟨?_, h.2.1, h.1⟩
  have hm : (runLoopFrom ⟨true, ph, l, pl, n, k⟩ evs).publishLog.length
      ≤ stopMeasure (runLoopFrom ⟨true, ph, l, pl, n, k⟩ evs) :=
    Nat.le_add_right _ _
  exact le_trans hm h.2.2

theorem crashed_absorbing (b : Bool) (l : List Detection)
    (pl : List (List Detection)) (n k : ℕ) (evs : List LoopEvent) :
    (runLoopFrom ⟨b, LoopPhase.crashed, l, pl, n, k⟩ evs).phase
        = LoopPhase.crashed
    ∧ (runLoopFrom ⟨b, LoopPhase.crashed, l, pl, n, k⟩ evs).lastDetections = l
    ∧ (runLoopFrom ⟨b, LoopPhase.crashed, l, pl, n, k⟩ evs).publishLog = pl
    ∧ (runLoopFrom ⟨b, LoopPhase.crashed, l, pl, n, k⟩ evs).extractionsStarted
        = n := by
  induction evs generalizing b with
  | nil => exact ⟨rfl, rfl, rfl, rfl⟩
  | cons e es ih =>
      cases e with
      | signalStop => simpa [runLoopFrom, stepLoop] using ih true
      | checkLoop p => simpa [runLoopFrom, stepLoop] using ih b
      | extractOk ds => simpa [runLoopFrom, stepLoop] using ih b
      | extractErr => simpa [runLoopFrom, stepLoop] using ih b
      | sleepDone => simpa [runLoopFrom, stepLoop] using ih b

/-- C3 counterexample: the extraction of the first iteration rejects; the
loop reaches the crashed state and, although the stop flag was never set
and the scheduler keeps offering timer and loop-top events, no further
iteration ever runs (extractionsStarted stays 1), contrary to the claim
that a failure is swallowed and the loop continues polling. -/
theorem extraction_failure_not_swallowed :
    (runLoopFrom initLoopState [LoopEvent.checkLoop true, LoopEvent.extractErr]).phase
        = LoopPhase.crashed
    ∧ (runLoopFrom initLoopState failThenContinueTrace).phase = LoopPhase.crashed
    ∧ (runLoopFrom initLoopState failThenContinueTrace).extractionsStarted = 1
    ∧ (runLoopFrom initLoopState failThenContinueTrace).stopped = false :=
  ⟨rfl, rfl, rfl, rfl⟩

/-- C3 amended: an extraction failure is not caught anywhere in detectLoop:
the rejection aborts the async loop for good — no later event restarts it
or starts another extraction — while the previously published snapshot does
remain current (the failure touches neither the snapshot reference nor the
publish log). -/
theorem extract_failure_terminates_loop (b : Bool) (l : List Detection)
    (pl : List (List Detection)) (n k : ℕ) (evs : List LoopEvent) :
    (stepLoop ⟨b, LoopPhase.extracting, l, pl, n, k⟩ LoopEvent.extractErr).lastDetections
        = l
    ∧ (stepLoop ⟨b, LoopPhase.extracting, l, pl, n, k⟩ LoopEvent.extractErr).publishLog
        = pl
    ∧ (stepLoop ⟨b, LoopPhase.extracting, l, pl, n, k⟩ LoopEvent.extractErr).phase
        = LoopPhase.crashed
    ∧ (runLoopFrom (stepLoop ⟨b, LoopPhase.extracting, l, pl, n, k⟩
          LoopEvent.extractErr) evs).phase = LoopPhase.crashed
    ∧ (runLoopFrom (stepLoop ⟨b, LoopPhase.extracting, l, pl, n, k⟩
          LoopEvent.extractErr) evs).lastDetections = l
    ∧ (runLoopFrom (stepLoop ⟨b, LoopPhase.extracting, l, pl, n, k⟩
          LoopEvent.extractErr) evs).extractionsStarted = n := by
  have hstep : stepLoop ⟨b, LoopPhase.extracting, l, pl, n, k⟩
      LoopEvent.extractErr = ⟨b, LoopPhase.crashed, l, pl, n, k - 1⟩ := by
    simp [stepLoop]
  rw [hstep]
  have h := crashed_absorbing b l pl n (k - 1) evs
  exact ⟨rfl, rfl, rfl, h.1, h.2.1, h.2.2.2⟩

theorem stepLoop_inflight (s : LoopState) (e : LoopEvent)
    (h : s.inFlight = pubBudget s.phase) :
    (stepLoop s e).inFlight = pubBudget (stepLoop s e).phase := by
  cases e with
  | signalStop => simp_all [stepLoop, pubBudget]
  | checkLoop p =>
      simp only [stepLoop]
      split_ifs <;> simp_all [pubBudget]
  | extractOk ds =>
      simp only [stepLoop]
      split_ifs <;> simp_all [pubBudget]
  | extractErr =>
      simp only [stepLoop]
      split_ifs <;> simp_all [pubBudget]
  | sleepDone =>
      simp only [stepLoop]
      split_ifs <;> simp_all [pubBudget]

theorem runLoop_inflight (s : LoopState) (evs : List LoopEvent)
    (h : s.inFlight = pubBudget s.phase) :
    (runLoopFrom s evs).inFlight = pubBudget (runLoopFrom s evs).phase := by
  induction evs generalizing s with
  | nil => exact h
  | cons e es ih =>
      simp only [runLoopFrom, List.foldl_cons]
      exact ih (stepLoop s e) (stepLoop_inflight s e h)

/-- C4: under every scheduling of events, at most one extraction is in
flight at any reachable state of the loop, and an extraction resolving
never leaves the loop extracting (it enters the 200 ms sleep, or the event
is a stale no-op), so extractions never overlap. -/
theorem at_most_one_extraction_in_flight (evs : List LoopEvent)
    (ds : List Detection) :
    (runLoopFrom initLoopState evs).inFlight ≤ 1
    ∧ (runLoopFrom initLoopState (evs ++ [LoopEvent.extractOk ds])).phase
        ≠ LoopPhase.extracting := by
  constructor
  · have h := runLoop_inflight initLoopState evs rfl
    rw [h]
    unfold pubBudget
    split <;> omega
  · have happ : runLoopFrom initLoopState (evs ++ [LoopEvent.extractOk ds])
        = stepLoop (runLoopFrom initLoopState evs) (LoopEvent.extractOk ds) := by
      simp [runLoopFrom, List.foldl_append]
    rw [happ]
    set t := runLoopFrom initLoopState evs with ht
    by_cases hp : t.phase = LoopPhase.extracting
    · simp [stepLoop, hp]
    · simp [stepLoop, hp]

theorem entryOfJson_ok_spec (j : Json) (e : FaceRecord Fl)
    (h : entryOfJson j = Except.ok e) : importedEntryMatches j e := by
  unfold entryOfJson at h
  by_cases hn : j.isNull
  · rw [if_pos hn] at h
    cases h
  · rw [if_neg hn] at h
    have hne : j ≠ Json.null := by
      intro hj
      rw [hj] at hn
      exact hn rfl
    cases hd : float32OfJson (getField j descriptorKey) with
    | error u => rw [hd] at h; cases h
    | ok d =>
        rw [hd] at h
        injection h with h
        subst h
        exact ⟨hne, rfl, rfl, rfl, hd⟩

theorem mapOrThrow_ok_spec (xs : List Json) (entries : List (FaceRecord Fl))
    (h : mapOrThrow entryOfJson xs = Except.ok entries) :
    List.Forall₂ importedEntryMatches xs entries := by
  induction xs generalizing entries with
  | nil =>
      unfold mapOrThrow at h
      injection h with h
      subst h
      exact List.Forall₂.nil
  | cons j js ih =>
      unfold mapOrThrow at h
      cases hj : entryOfJson j with
      | error u => rw [hj] at h; cases h
      | ok e =>
          rw [hj] at h
          cases hm : mapOrThrow entryOfJson js with
          | error u => rw [hm] at h; cases h
          | ok es =>
              rw [hm] at h
              injection h with h
              subst h
              exact List.Forall₂.cons (entryOfJson_ok_spec j e hj) (ih es hm)

/-- C10 counterexample: the array [null] does not have every element
accepted: reading the descriptor of the null element throws, the catch
block reports the format error, and the pre-existing database is kept
instead of being replaced by the array. -/
theorem null_element_fails_import :
    importDatabase (Except.ok nullElementInput) [sampleFlRecord] emptyErr
      = ([sampleFlRecord], importErrorMessage) := rfl

/-- C10 amended: import validates nothing per element beyond what the
typed-array constructor forces. Whenever the element-wise conversion goes
through — which it does for every array of non-null elements whose
descriptors the constructor accepts, however malformed otherwise — the
whole array replaces the database and each record holds exactly the id,
name and image fields of its element, unchecked, plus the descriptor as
the constructor built it: absent and non-numeric descriptors give the
empty embedding, numeric ones (truncated, also when fractional) a
zero-filled array of that length, arrays an element-wise ToNumber image of
any length, plain objects an array-like read. But a null element (the
property access throws) or a descriptor whose length conversion throws a
RangeError (negative, infinite, or at least 2 ^ 53, also as a numeric
string) fails the entire import instead. -/
theorem import_elements_unvalidated (xs : List Json)
    (entries : List (FaceRecord Fl)) (g : List (FaceRecord Fl)) (e : String)
    (h : mapOrThrow entryOfJson xs = Except.ok entries) :
    importDatabase (Except.ok (Json.arr xs)) g e = (entries, e)
    ∧ entries.length = xs.length
    ∧ List.Forall₂ importedEntryMatches xs entries := by
  have hf := mapOrThrow_ok_spec xs entries h
  refine ⟨?_, (List.Forall₂.length_eq hf).symm, hf⟩
  simp only [importDatabase]
  rw [h]

/-- C10 witness: a concrete eight-element array of assorted shapes (object
with a numeric id, bare number, string, boolean, array holding null, and
three descriptor-boundary cases: an exponent-form numeric string, an
element-wise converted array, a fractional length) is imported wholesale. -/
theorem import_elements_unvalidated_witness :
    importDatabase (Except.ok (Json.arr oddElements)) emptyGallery emptyErr
      = (oddEntries, emptyErr)
    ∧ oddEntries.length = oddElements.length
    ∧ List.Forall₂ importedEntryMatches oddElements oddEntries :=
  import_elements_unvalidated oddElements oddEntries emptyGallery emptyErr rfl

/-- A negative numeric string descriptor makes the typed-array length
conversion throw a RangeError, so the whole import is rejected and the
pre-existing database kept. -/
theorem negative_string_descriptor_rejects_import :
    importDatabase
        (Except.ok (Json.arr [Json.obj [(descriptorKey, Json.str negDescString)]]))
        [sampleFlRecord] emptyErr
      = ([sampleFlRecord], importErrorMessage) := rfl

/-- An exponent-form numeric string descriptor is a length: it builds a
zero-filled array of the full denoted size. -/
theorem exponent_string_descriptor_expands :
    float32OfJson (some (Json.str expKString))
      = Except.ok (List.replicate 1000 (Fl.val 0)) := rfl

/-- A fractional numeric descriptor truncates to an integer length under
the current ToIndex semantics instead of throwing. -/
theorem fractional_length_descriptor_truncates :
    float32OfJson (some (Json.num qThreeHalves)) = Except.ok [Fl.val 0] := rfl

/-- C5 counterexample: a well-formed JSON value whose top level is an
object, not an array, is neither imported nor reported: the database keeps
its previous records and the error state keeps its previous (empty) value,
so no MalformedFormat condition reaches the caller. -/
theorem nonarray_import_silently_ignored :
    importDatabase (Except.ok nonArrayInput) [sampleFlRecord] emptyErr
      = ([sampleFlRecord], emptyErr) := rfl

/-- C5 amended: import is atomic — it either replaces the whole database
with the converted array or leaves the database exactly as it was — and a
parse failure or a throwing element reports the format error; but a
successful parse whose top level is not an array is silently ignored, the
database and the error state both left untouched, no condition reported. -/
theorem import_atomic_outcomes (parsed : Except Unit Json)
    (g : List (FaceRecord Fl)) (e : String) :
    ((importDatabase parsed g e).1 = g
      ∨ ∃ xs entries, parsed = Except.ok (Json.arr xs)
          ∧ mapOrThrow entryOfJson xs = Except.ok entries
          ∧ importDatabase parsed g e = (entries, e))
    ∧ (parsed = Except.error () → importDatabase parsed g e = (g, importErrorMessage))
    ∧ (∀ xs, parsed = Except.ok (Json.arr xs) →
        mapOrThrow entryOfJson xs = Except.error () →
        importDatabase parsed g e = (g, importErrorMessage))
    ∧ (∀ j, parsed = Except.ok j → (∀ xs, j ≠ Json.arr xs) →
        importDatabase parsed g e = (g, e)) := by
  refine ⟨?_, ?_, ?_, ?_⟩
  · cases parsed with
    | error u => exact Or.inl rfl
    | ok j =>
        cases j with
        | arr xs =>
            cases hm : mapOrThrow entryOfJson xs with
            | error u =>
                left
                simp only [importDatabase]
                rw [hm]
            | ok entries =>
                right
                refine ⟨xs, entries, rfl, hm, ?_⟩
                simp only [importDatabase]
                rw [hm]
        | null => exact Or.inl rfl
        | bool b => exact Or.inl rfl
        | num q => exact Or.inl rfl
        | str s => exact Or.inl rfl
        | obj fs => exact Or.inl rfl
  · rintro rfl
    rfl
  · rintro xs rfl hm
    simp only [importDatabase]
    rw [hm]
  · rintro j rfl hne
    cases j with
    | arr xs => exact absurd rfl (hne xs)
    | null => rfl
    | bool b => rfl
    | num q => rfl
    | str s => rfl
    | obj fs => rfl

theorem length_filterMap_eq_countP {α β : Type} (f : α → Option β)
    (l : List α) :
    (l.filterMap f).length = l.countP fun a => (f a).isSome := by
  induction l with
  | nil => rfl
  | cons a l ih =>
      cases hf : f a <;>
        simp [List.filterMap_cons, hf, List.countP_cons, ih]

/-- C6: batch enrollment partitions the files independently: the database
gains exactly one appended record per file whose extraction succeeded and
none for the others, the records already enrolled stay in place, partial
success reports no error, and only when not a single file succeeds is the
one aggregate no-faces message reported, the database then untouched. -/
theorem batch_enroll_partition (gal : List (FaceRecord Fl))
    (files : List FileModel) :
    (handleFileSelect gal files).1.length
        = gal.length + (files.enum.countP fun p => (enrollEntry p.1 p.2).isSome)
    ∧ (handleFileSelect gal files).1.take gal.length = gal
    ∧ (0 < (files.enum.countP fun p => (enrollEntry p.1 p.2).isSome) →
        (handleFileSelect gal files).2 = "")
    ∧ ((files.enum.countP fun p => (enrollEntry p.1 p.2).isSome) = 0 →
        handleFileSelect gal files = (gal, noFacesMessage)) := by
  have hc : (files.enum.filterMap fun p => enrollEntry p.1 p.2).length
      = files.enum.countP fun p => (enrollEntry p.1 p.2).isSome :=
    length_filterMap_eq_countP _ _
  simp only [handleFileSelect]
  split_ifs with h0
  · rw [h0] at hc
    refine ⟨by simp [← hc], List.take_length gal, ?_, fun _ => rfl⟩
    intro hpos
    omega
  · rw [hc] at h0
    refine ⟨?_, ?_, fun _ => rfl, fun hz => absurd hz h0⟩
    · simp only [List.length_append, hc]
    · exact List.take_left gal _

theorem forall₂_ids_copied {xs : List Json} {entries : List (FaceRecord Fl)}
    (h : List.Forall₂ importedEntryMatches xs entries) :
    entries.map FaceRecord.id = xs.map fun j => getField j idKey := by
  induction h with
  | nil => rfl
  | cons hpe _ ih => simp only [List.map_cons, ih, hpe.2.1]

/-- C8 counterexample: importing an array holding the same record twice
yields a database whose two records carry the same id — no rejection, no
regeneration — so id uniqueness is not an invariant maintained across
import. -/
theorem import_accepts_duplicate_ids :
    (importDatabase (Except.ok (Json.arr [dupIdElement, dupIdElement]))
        emptyGallery emptyErr).1.map FaceRecord.id
      = [some (Json.str twinId), some (Json.str twinId)]
    ∧ ¬ ((importDatabase (Except.ok (Json.arr [dupIdElement, dupIdElement]))
        emptyGallery emptyErr).1.map FaceRecord.id).Nodup := by
  refine ⟨rfl, ?_⟩
  intro h
  have he : (importDatabase (Except.ok (Json.arr [dupIdElement, dupIdElement]))
      emptyGallery emptyErr).1.map FaceRecord.id
      = [some (Json.str twinId), some (Json.str twinId)] := rfl
  rw [he] at h
  exact (List.nodup_cons.mp h).1 (List.mem_cons_self _ _)

/-- C8 amended: no insertion-time id check exists. Enrollment appends every
successful record to whatever is already there (or leaves the database
alone when none succeeded), never comparing ids against existing records,
and import copies each id field of the input through unchanged, so
duplicate ids are possible. -/
theorem no_insertion_id_check (gal : List (FaceRecord Fl))
    (files : List FileModel) (xs : List Json) :
    ((handleFileSelect gal files).1 = gal
      ∨ (handleFileSelect gal files).1
          = gal ++ (files.enum.filterMap fun p => enrollEntry p.1 p.2))
    ∧ (∀ entries, mapOrThrow entryOfJson xs = Except.ok entries →
        entries.map FaceRecord.id = xs.map fun j => getField j idKey) := by
  constructor
  · simp only [handleFileSelect]
    split_ifs <;> [exact Or.inl rfl; exact Or.inr rfl]
  · intro entries hm
    exact forall₂_ids_copied (mapOrThrow_ok_spec xs entries hm)

theorem renderDetections_count (gal : List (FaceRecord ℝ))
    (dets : List Detection) (ops : List DrawOp) (n : ℕ) :
    (dets.foldl (renderDetection gal) (ops, n)).2
      = n + dets.countP (fun d => shouldBlur gal d.descriptor) := by
  induction dets generalizing ops n with
  | nil => simp
  | cons d ds ih =>
      simp only [List.foldl_cons, List.countP_cons]
      by_cases hb : shouldBlur gal d.descriptor
      · rw [show renderDetection gal (ops, n) d
            = (ops ++ [DrawOp.fillRect fillStyleRed d.box]
                ++ [DrawOp.strokeRect matchStrokeStyle 2 d.box], n + 1) by
            simp [renderDetection, hb]]
        rw [ih]
        simp [hb]
        omega
      · rw [show renderDetection gal (ops, n) d
            = (ops ++ [DrawOp.strokeRect noMatchStrokeStyle 2 d.box], n) by
            simp [renderDetection, hb]]
        rw [ih]
        simp [hb]

/-- C7: every invocation of processFrame that finds the video element, the
canvas, the loaded models and the 2d context publishes stats with
facesDetected the length of the cached detection snapshot and facesBlurred
(facesRedacted of the spec) the number of detections whose match verdict is
true, fps untouched; on the empty snapshot both counts are zero and the
only draw operation is the frame copy, no overlay. -/
theorem render_stats_match_snapshot (dets : List Detection)
    (gal : List (FaceRecord ℝ)) (prev : DetectionStats) :
    (processFrame true true true true dets gal prev).2.facesDetected
        = dets.length
    ∧ (processFrame true true true true dets gal prev).2.facesBlurred
        = dets.countP (fun d => shouldBlur gal d.descriptor)
    ∧ (processFrame true true true true dets gal prev).2.fps = prev.fps
    ∧ (dets = [] →
        (processFrame true true true true dets gal prev).1 = [DrawOp.videoFrame]
        ∧ (processFrame true true true true dets gal prev).2.facesDetected = 0
        ∧ (processFrame true true true true dets gal prev).2.facesBlurred = 0) := by
  refine ⟨?_, ?_, ?_, ?_⟩
  · simp [processFrame]
  · have h := renderDetections_count gal dets [DrawOp.videoFrame] 0
    simpa [processFrame] using h
  · simp [processFrame]
  · rintro rfl
    exact ⟨rfl, rfl, rfl⟩

/-- C9 counterexample: startStream invoked with the models flag false and a
valid http url starts playback and reports nothing: the outcome is
isPlaying with an empty error, not a reported condition with the session
left stopped. -/
theorem start_without_models_starts_playing :
    startStream false httpUrl true true emptyErr = ⟨true, emptyErr, false⟩ := rfl

/-- C9 amended: startStream itself never consults the model-readiness flag
— its outcome is identical whether or not the models are loaded — and the
only guards against starting before the models load sit outside it, in the
UI: the Start button is disabled and the auto-start effect does not fire
until modelsLoaded is set. -/
theorem model_guard_is_outside_startStream (url failMsg : String)
    (videoPresent playOk autoStart playing : Bool) :
    startStream false url videoPresent playOk failMsg
        = startStream true url videoPresent playOk failMsg
    ∧ startButtonEnabled false = false
    ∧ autoStartTriggers autoStart playing false = false := by
  refine ⟨rfl, rfl, ?_⟩
  simp [autoStartTriggers]

end FaceRecog
